import Mathlib

/-!
Verification of the message synchronization and ordering subsystem of a
business-to-customer chat application: cursor pagination over a
conversation's messages, the conversation roll-up (unread counts and
previews), the find-or-create conversation operation, conversation
deletion, the away/welcome message trigger, read marking, and the
existence check.

The backing relational store is modelled as plain Lists of rows.  Row ids
and timestamps are modelled as `Nat` (UUIDs are ordered lexicographically,
which is a linear order; timestamps likewise).  A store query
`order by created_at desc` leaves the relative order of equal timestamps
unspecified; the model makes it deterministic by breaking ties by id
descending.  All properties proved below that depend on tie order are
robust to this choice or state it explicitly.
-/

/-- `sender_type` column: 'business' | 'customer'. -/
inductive SenderType where
  | business
  | customer
deriving DecidableEq, Repr

/-- `status` column: 'sent' | 'delivered' | 'read'. -/
inductive MsgStatus where
  | sent
  | delivered
  | read
deriving DecidableEq, Repr

/-- A row of the `messages` table. -/
structure Message where
  id : Nat
  conversation_id : Nat
  sender_type : SenderType
  sender_id : Nat
  content : Option String
  image_url : Option String
  status : MsgStatus
  reply_to_id : Option Nat
  created_at : Nat
deriving DecidableEq, Repr

/-- A row of the `conversations` table. -/
structure Conversation where
  id : Nat
  business_id : Nat
  customer_email : String
  customer_name : Option String
  customer_phone : Option String
  pinned : Bool
  created_at : Nat
  updated_at : Nat
deriving DecidableEq, Repr

/-- The columns of the `businesses` table read by the code under
verification (`id`, `away_message`, `away_message_enabled`); the remaining
columns are never inspected by the verified operations. -/
structure Business where
  id : Nat
  away_message : Option String
  away_message_enabled : Bool
deriving DecidableEq, Repr

/-- `PaginationCursor = { created_at, id }` from the database types. -/
structure PaginationCursor where
  created_at : Nat
  id : Nat
deriving DecidableEq, Repr

/-- `a` sorts before (or with) `b` in an `order by created_at desc` store
query; ties are resolved by id descending (the model's deterministic
refinement of the store's unspecified tie order). -/
def newerEq (a b : Message) : Bool :=
  decide (b.created_at < a.created_at) ||
    (decide (b.created_at = a.created_at) && decide (b.id ≤ a.id))

/-- Insert a message into a newest-first sorted list. -/
def insertDesc (m : Message) : List Message → List Message
  | [] => [m]
  | x :: xs => if newerEq m x then m :: x :: xs else x :: insertDesc m xs

/-- Sort a list of messages newest-first (the model of
`order by created_at desc`). -/
def sortNewestFirst : List Message → List Message
  | [] => []
  | m :: ms => insertDesc m (sortNewestFirst ms)

/-- `MESSAGES_PER_PAGE = 20`. -/
def MESSAGES_PER_PAGE : Nat := 20

/-- The cursor filter of `useMessages`: `query.lt('created_at',
pageParam.created_at)` when a cursor is supplied.  Note the source
compares only `created_at`; the cursor's `id` is never used in the
filter. -/
def cursorFilter (cursor : Option PaginationCursor) (m : Message) : Bool :=
  match cursor with
  | none => true
  | some c => decide (m.created_at < c.created_at)

/-- The store query issued by `useMessages`' page function:
`eq conversation_id`, optional `lt created_at`, `order by created_at
desc`, `limit MESSAGES_PER_PAGE + 1`. -/
def queryMessages (msgs : List Message) (cid : Nat)
    (cursor : Option PaginationCursor) : List Message :=
  (sortNewestFirst (msgs.filter
      (fun m => decide (m.conversation_id = cid) && cursorFilter cursor m))).take
    (MESSAGES_PER_PAGE + 1)

/-- The page value returned by `useMessages`' `queryFn`. -/
structure Page where
  data : List Message
  nextCursor : Option PaginationCursor
  hasMore : Bool
deriving DecidableEq, Repr

/-- The body of `useMessages`' `queryFn` for a non-null conversation id:
fetch one row past the page size, set `hasMore`, drop the extra row,
reverse to oldest-first, and build `nextCursor` from `reversed[0]`. -/
def fetchPageCore (msgs : List Message) (cid : Nat)
    (cursor : Option PaginationCursor) : Page :=
  let messages := queryMessages msgs cid cursor
  let hasMore := decide (messages.length > MESSAGES_PER_PAGE)
  let messagesToReturn := if hasMore then messages.take MESSAGES_PER_PAGE else messages
  let reversed := messagesToReturn.reverse
  let nextCursor : Option PaginationCursor :=
    if hasMore then reversed.head?.map (fun r => ⟨r.created_at, r.id⟩) else none
  ⟨reversed, nextCursor, hasMore⟩

/-- A read issued against the store by the page fetch. -/
inductive QueryOp where
  | selectMessages (cid : Nat) (cursor : Option PaginationCursor)
deriving DecidableEq, Repr

/-- `useMessages`' `queryFn` with its store reads traced: a null
conversation id short-circuits to `{ data: [], nextCursor: null,
hasMore: false }` before any query is built. -/
def fetchPageT (msgs : List Message) (conversationId : Option Nat)
    (cursor : Option PaginationCursor) : Page × List QueryOp :=
  match conversationId with
  | none => (⟨[], none, false⟩, [])
  | some cid => (fetchPageCore msgs cid cursor, [QueryOp.selectMessages cid cursor])

/-- `useMessages`' `queryFn` (result only). -/
def fetchPage (msgs : List Message) (conversationId : Option Nat)
    (cursor : Option PaginationCursor) : Page :=
  (fetchPageT msgs conversationId cursor).1

/-- Drive the infinite query to exhaustion: call the page function,
follow `nextCursor` while `hasMore`, and collect every returned page's
items (fuel bounds the recursion; it is never reached in the concrete
evaluations below). -/
def fetchAll (msgs : List Message) (cid : Nat) :
    Nat → Option PaginationCursor → List Message
  | 0, _ => []
  | fuel + 1, cursor =>
      let page := fetchPageCore msgs cid cursor
      if page.hasMore then
        match page.nextCursor with
        | some c => page.data ++ fetchAll msgs cid fuel (some c)
        | none => page.data
      else page.data

/-- A conversation of 21 messages that all share one `created_at`
(same-millisecond inserts), with distinct ids. -/
def mkTieMsg (i : Nat) : Message :=
  ⟨i, 1, SenderType.customer, 7, none, none, MsgStatus.sent, none, 100⟩

/-- The 21 tied messages, ids 1..21, all in conversation 1. -/
def msgsTie : List Message := (List.range 21).map (fun i => mkTieMsg (i + 1))

/-- JS truthiness of a nullable string column: truthy iff non-null and
non-empty. -/
def jsTruthy : Option String → Bool
  | none => false
  | some s => decide (s ≠ "")

/-- The per-conversation unread-count query of `useConversations`:
`count(*)` of messages with the conversation id, `sender_type =
'customer'` and `status in ('sent', 'delivered')`. -/
def unreadCountQuery (msgs : List Message) (cid : Nat) : Nat :=
  (msgs.filter (fun m =>
      decide (m.conversation_id = cid) &&
      decide (m.sender_type = SenderType.customer) &&
      (decide (m.status = MsgStatus.sent) || decide (m.status = MsgStatus.delivered)))).length

/-- The per-conversation latest-message query of `useConversations`:
`order by created_at desc limit 1`. -/
def latestMessageQuery (msgs : List Message) (cid : Nat) : Option Message :=
  (sortNewestFirst (msgs.filter (fun m => decide (m.conversation_id = cid)))).head?

/-- The preview computation of `useConversations`: `''` by default;
if a latest message exists, its `content` when truthy, else `'Image'`
when its `image_url` is truthy. -/
def computePreview (latest : Option Message) : String :=
  match latest with
  | none => ""
  | some m =>
      if jsTruthy m.content then m.content.getD ""
      else if jsTruthy m.image_url then "Image"
      else ""

/-- One conversation ordered before another in `useConversations`' store
query `order by pinned desc, updated_at desc`; ties are broken by id
descending (the model's deterministic refinement of the store's
unspecified tie order). -/
def convBefore (a b : Conversation) : Bool :=
  (a.pinned && !b.pinned) ||
    ((a.pinned == b.pinned) &&
      (decide (b.updated_at < a.updated_at) ||
        (decide (a.updated_at = b.updated_at) && decide (b.id ≤ a.id))))

/-- Insert a conversation into a list sorted by `convBefore`. -/
def insertConv (c : Conversation) : List Conversation → List Conversation
  | [] => [c]
  | x :: xs => if convBefore c x then c :: x :: xs else x :: insertConv c xs

/-- Sort conversations by `pinned desc, updated_at desc`. -/
def sortConvs : List Conversation → List Conversation
  | [] => []
  | c :: cs => insertConv c (sortConvs cs)

/-- A conversation summary produced by `useConversations`: the
conversation row extended with `unread_count` and
`latest_message_preview`. -/
structure ConvSummary where
  conv : Conversation
  unread_count : Nat
  latest_message_preview : String
deriving DecidableEq, Repr

/-- `useConversations`' `queryFn`: require an authenticated user, select
that business's conversations ordered `pinned desc, updated_at desc`
limited to 100, and extend each with its unread count and latest-message
preview. -/
def useConversationsQuery (user : Option Nat) (convs : List Conversation)
    (msgs : List Message) : Except String (List ConvSummary) :=
  match user with
  | none => Except.error "Not authenticated"
  | some uid =>
      let myConvs := (sortConvs (convs.filter (fun c => decide (c.business_id = uid)))).take 100
      Except.ok (myConvs.map (fun c =>
        ⟨c, unreadCountQuery msgs c.id, computePreview (latestMessageQuery msgs c.id)⟩))

/-- The claim's unread-count formula: the number of the conversation's
messages with `sender_type = customer` and `status ∈ {sent, delivered}`. -/
def specUnreadCount (msgs : List Message) (cid : Nat) : Nat :=
  (msgs.filter (fun m => decide (m.conversation_id = cid ∧
      m.sender_type = SenderType.customer ∧
      (m.status = MsgStatus.sent ∨ m.status = MsgStatus.delivered)))).length

/-- The update applied per message row by `useMarkMessagesAsRead`'s batch
update: `set status = 'read' where conversation_id = cid and sender_type =
'customer' and status in ('sent', 'delivered')`. -/
def markFlip (cid : Nat) (m : Message) : Message :=
  if decide (m.conversation_id = cid) &&
      decide (m.sender_type = SenderType.customer) &&
      (decide (m.status = MsgStatus.sent) || decide (m.status = MsgStatus.delivered))
  then { m with status := MsgStatus.read } else m

/-- `useMarkMessagesAsRead`'s `mutationFn`: require an authenticated
user, then batch-update all unread customer messages of the conversation
to `read`. -/
def markMessagesAsRead (user : Option Nat) (msgs : List Message) (cid : Nat) :
    Except String (List Message) :=
  match user with
  | none => Except.error "Not authenticated"
  | some _ => Except.ok (msgs.map (markFlip cid))

/-- A conversation (id 1, business 5) with three unread customer
messages, one read business message, and one unread customer message in a
different conversation. -/
def demoUnread : List Message := [
  ⟨1, 1, SenderType.customer, 9, some "a", none, MsgStatus.sent, none, 1⟩,
  ⟨2, 1, SenderType.customer, 9, some "b", none, MsgStatus.delivered, none, 2⟩,
  ⟨3, 1, SenderType.customer, 9, some "c", none, MsgStatus.sent, none, 3⟩,
  ⟨4, 1, SenderType.business, 5, some "d", none, MsgStatus.read, none, 4⟩,
  ⟨5, 2, SenderType.customer, 8, some "e", none, MsgStatus.sent, none, 5⟩]

/-- The store after marking conversation 1 read. -/
def demoUnreadAfter : List Message := demoUnread.map (markFlip 1)

/-- The latest message of the C5 counterexample: non-null but empty
`content` together with a set `image_url`. -/
def msgC5 : Message :=
  ⟨1, 1, SenderType.customer, 9, some "", some "http://img", MsgStatus.read, none, 10⟩

/-- The conversation holding `msgC5`. -/
def convC5 : Conversation := ⟨1, 5, "a@b.c", none, none, false, 1, 10⟩

/-- PostgREST `.single()`: the row when the filtered result has exactly
one element, otherwise null data (with error code PGRST116, "JSON object
requested, multiple (or no) rows returned"). -/
def singleRow {α : Type} : List α → Option α
  | [x] => some x
  | _ => none

/-- The durable store shared by all operations: the three tables the
verified code touches. -/
structure ChatStore where
  businesses : List Business
  conversations : List Conversation
  messages : List Message
deriving DecidableEq, Repr

/-- The existence check of `checkAndSendAwayMessage`: a message of the
conversation with `sender_type = 'business'`, `sender_id = businessId` and
`content` equal to the away message (the `.limit(1).maybeSingle()`
lookup succeeds iff such a row exists). -/
def awayPred (bid cid : Nat) (s : String) (m : Message) : Bool :=
  decide (m.conversation_id = cid) && decide (m.sender_type = SenderType.business) &&
    decide (m.sender_id = bid) && decide (m.content = some s)

/-- The number of persisted business-authored copies of the away message
in the conversation. -/
def awayCount (store : ChatStore) (bid cid : Nat) (s : String) : Nat :=
  (store.messages.filter (awayPred bid cid s)).length

/-- `checkAndSendAwayMessage(businessId, conversationId)` with no store
errors: read the business's away settings (no-op when the lookup fails or
the feature is disabled or the message is untruthy), no-op when the exact
away message already exists in the conversation, otherwise insert it (the
store assigns `newId` and `now`) and bump the conversation's
`updated_at`.  The trailing email notification is an external side effect
with no store state. -/
def checkAndSendAwayMessage (bid cid : Nat) (newId now : Nat)
    (store : ChatStore) : ChatStore :=
  match singleRow (store.businesses.filter (fun b => decide (b.id = bid))) with
  | none => store
  | some business =>
      if !(business.away_message_enabled && jsTruthy business.away_message) then store
      else
        let awayMessage := business.away_message.getD ""
        if store.messages.any (awayPred bid cid awayMessage) then store
        else
          { store with
            messages := store.messages ++
              [⟨newId, cid, SenderType.business, bid, some awayMessage, none,
                MsgStatus.sent, none, now⟩],
            conversations := store.conversations.map (fun c =>
              if decide (c.id = cid) then { c with updated_at := now } else c) }

/-- Conversations of the `(business_id, customer_email)` pair. -/
def pairCount (convs : List Conversation) (bid : Nat) (email : String) : Nat :=
  (convs.filter (fun c =>
      decide (c.business_id = bid) && decide (c.customer_email = email))).length

/-- `useFindOrCreateConversation`'s `mutationFn`: look up the pair with
`.single()`; when a row comes back, update `customer_name`/`customer_phone`
when a truthy one was supplied (JS `customerName || customerPhone`),
otherwise return the row as is; when none comes back, insert one new
conversation (the store assigns `newId` and `now`).  Returns the resulting
conversation and the table contents. -/
def findOrCreateConversation (convs : List Conversation) (bid : Nat) (email : String)
    (name phone : Option String) (newId now : Nat) :
    Conversation × List Conversation :=
  match singleRow (convs.filter (fun c =>
      decide (c.business_id = bid) && decide (c.customer_email = email))) with
  | some existing =>
      if jsTruthy name || jsTruthy phone then
        let updated : Conversation :=
          { existing with
            customer_name := if jsTruthy name then name else existing.customer_name,
            customer_phone := if jsTruthy phone then phone else existing.customer_phone,
            updated_at := now }
        (updated, convs.map (fun c => if decide (c.id = existing.id) then updated else c))
      else (existing, convs)
  | none =>
      let newConv : Conversation :=
        ⟨newId, bid, email, if jsTruthy name then name else none,
          if jsTruthy phone then phone else none, false, now, now⟩
      (newConv, convs ++ [newConv])

/-- A write issued against the store by the delete operation. -/
inductive StoreOp where
  | deleteMessages (cid : Nat)
  | deleteConversation (cid : Nat)
deriving DecidableEq, Repr

/-- `useDeleteConversation`'s `mutationFn` with its store writes traced:
require an authenticated user, fetch the conversation with `.single()`
(throwing when it is missing), reject when it belongs to another
business, else delete the conversation's messages and then the
conversation row. -/
def useDeleteConversationRun (user : Option Nat) (convs : List Conversation)
    (msgs : List Message) (cid : Nat) :
    Except String (List Conversation × List Message) × List StoreOp :=
  match user with
  | none => (Except.error "Not authenticated", [])
  | some uid =>
      match singleRow (convs.filter (fun c => decide (c.id = cid))) with
      | none => (Except.error "Conversation not found", [])
      | some conversation =>
          if conversation.business_id ≠ uid then
            (Except.error "Unauthorized: Conversation does not belong to this business", [])
          else
            (Except.ok (convs.filter (fun c => !decide (c.id = cid)),
                        msgs.filter (fun m => !decide (m.conversation_id = cid))),
             [StoreOp.deleteMessages cid, StoreOp.deleteConversation cid])

/-- The asynchronous outcomes `useSendMessage`'s `mutationFn` encounters
after its insert: each later store lookup may reject (caught by the
surrounding try/catch) or return no row, and the email dispatch may
reject (caught by `.catch`). -/
structure SendEnv where
  insertResult : Except String Message
  convLookup : Except String (Option Conversation)
  businessBySender : Except String (Option Business)
  businessByConv : Except String (Option Business)
  notifyResult : Except String Unit
deriving Repr

/-- `useSendMessage`'s `mutationFn`: throw when the insert fails;
afterwards run the notification phase — conversation lookup, business
lookup picked by the sent message's `sender_type`, then the email
dispatch — logging every failure and always returning the inserted
message.  The returned list is the console-error log. -/
def useSendMessage (env : SendEnv) : Except String Message × List String :=
  match env.insertResult with
  | Except.error e => (Except.error e, [])
  | Except.ok messageData =>
      let log : List String :=
        match env.convLookup with
        | Except.error _ => ["Failed to prepare email notification"]
        | Except.ok none => []
        | Except.ok (some _) =>
            match (if messageData.sender_type = SenderType.business then
                env.businessBySender else env.businessByConv) with
            | Except.error _ => ["Failed to prepare email notification"]
            | Except.ok none => []
            | Except.ok (some _) =>
                match env.notifyResult with
                | Except.error _ => ["Email notification error"]
                | Except.ok _ => []
      (Except.ok messageData, log)

/-- `checkConversationExists(businessId, customerEmail)`: run the pair
lookup with `.single()`; a transient store failure is modelled by
`fault`, injecting an error with the given code in place of the query.
Errors other than `PGRST116` are thrown; otherwise the result is whether
a row came back. -/
def checkConversationExists (convs : List Conversation) (bid : Nat)
    (email : String) (fault : Option String) : Except String Bool :=
  let res : Option Conversation × Option String :=
    match fault with
    | some code => (none, some code)
    | none =>
        match convs.filter (fun c =>
            decide (c.business_id = bid) && decide (c.customer_email = email)) with
        | [x] => (some x, none)
        | _ => (none, some "PGRST116")
  match res.2 with
  | some code => if code ≠ "PGRST116" then Except.error code else Except.ok res.1.isSome
  | none => Except.ok res.1.isSome

/-- A store with one business (away messaging on), one fresh conversation
and no messages. -/
def storeC3 : ChatStore :=
  ⟨[⟨5, some "We are away", true⟩], [⟨1, 5, "a@b.c", none, none, false, 1, 1⟩], []⟩

/-- The single conversation of the C7 witness store. -/
def convC7 : Conversation := ⟨1, 5, "a@b.c", none, none, false, 1, 1⟩

/-- The single message of the C7 witness store. -/
def msgC7 : Message := ⟨2, 1, SenderType.customer, 9, some "hi", none, MsgStatus.sent, none, 3⟩

/-- The message inserted by the C8 witness send. -/
def msgC8 : Message := ⟨3, 1, SenderType.customer, 9, some "hello", none, MsgStatus.sent, none, 4⟩

/-- A C8 environment whose insert succeeds but whose email dispatch
rejects. -/
def envC8 : SendEnv :=
  ⟨Except.ok msgC8,
   Except.ok (some ⟨1, 5, "a@b.c", none, none, false, 1, 1⟩),
   Except.ok (some ⟨5, none, false⟩),
   Except.ok (some ⟨5, none, false⟩),
   Except.error "smtp unreachable"⟩

/-- The single conversation of the C10 witness store. -/
def convC10 : Conversation := ⟨1, 5, "a@b.c", none, none, false, 1, 1⟩

theorem newerEq_total (a b : Message) : newerEq a b = true ∨ newerEq b a = true := by
  simp only [newerEq, Bool.or_eq_true, Bool.and_eq_true, decide_eq_true_eq]
  omega

theorem newerEq_trans {a b c : Message} (hab : newerEq a b = true)
    (hbc : newerEq b c = true) : newerEq a c = true := by
  simp only [newerEq, Bool.or_eq_true, Bool.and_eq_true, decide_eq_true_eq] at *
  omega

theorem mem_insertDesc {a m : Message} {l : List Message} :
    a ∈ insertDesc m l ↔ a = m ∨ a ∈ l := by
  induction l with
  | nil => simp [insertDesc]
  | cons x xs ih =>
      by_cases h : newerEq m x = true
      · simp [insertDesc, h]
      · simp only [insertDesc, if_neg h, List.mem_cons, ih]
        tauto

theorem length_insertDesc (m : Message) (l : List Message) :
    (insertDesc m l).length = l.length + 1 := by
  induction l with
  | nil => rfl
  | cons x xs ih =>
      by_cases h : newerEq m x = true
      · simp [insertDesc, h]
      · simp [insertDesc, h, ih]

theorem pairwise_insertDesc {m : Message} {l : List Message}
    (h : l.Pairwise (fun a b => newerEq a b = true)) :
    (insertDesc m l).Pairwise (fun a b => newerEq a b = true) := by
  induction l with
  | nil => simp [insertDesc]
  | cons x xs ih =>
      rcases List.pairwise_cons.mp h with ⟨hx, hxs⟩
      by_cases hm : newerEq m x = true
      · rw [insertDesc, if_pos hm]
        refine List.pairwise_cons.mpr ⟨?_, h⟩
        intro b hb
        rcases List.mem_cons.mp hb with rfl | hb'
        · exact hm
        · exact newerEq_trans hm (hx b hb')
      · rw [insertDesc, if_neg hm]
        refine List.pairwise_cons.mpr ⟨?_, ih hxs⟩
        intro b hb
        rcases mem_insertDesc.mp hb with rfl | hb'
        · rcases newerEq_total x b with hxb | hbx
          · exact hxb
          · exact absurd hbx hm
        · exact hx b hb'

theorem pairwise_sortNewestFirst (l : List Message) :
    (sortNewestFirst l).Pairwise (fun a b => newerEq a b = true) := by
  induction l with
  | nil => exact List.Pairwise.nil
  | cons m ms ih => exact pairwise_insertDesc ih

theorem mem_sortNewestFirst {a : Message} {l : List Message} :
    a ∈ sortNewestFirst l ↔ a ∈ l := by
  induction l with
  | nil => simp [sortNewestFirst]
  | cons m ms ih =>
      simp [sortNewestFirst, mem_insertDesc, ih]

theorem length_sortNewestFirst (l : List Message) :
    (sortNewestFirst l).length = l.length := by
  induction l with
  | nil => rfl
  | cons m ms ih => simp [sortNewestFirst, length_insertDesc, ih]

theorem fetchPage_some (msgs : List Message) (cid : Nat)
    (cursor : Option PaginationCursor) :
    fetchPage msgs (some cid) cursor = fetchPageCore msgs cid cursor := rfl

theorem fetchPageCore_small (msgs : List Message) (cid : Nat)
    (cursor : Option PaginationCursor)
    (h : (queryMessages msgs cid cursor).length ≤ MESSAGES_PER_PAGE) :
    fetchPageCore msgs cid cursor =
      ⟨(queryMessages msgs cid cursor).reverse, none, false⟩ := by
  have hd : decide ((queryMessages msgs cid cursor).length > MESSAGES_PER_PAGE) = false := by
    simp [Nat.not_lt.mpr h]
  simp [fetchPageCore, hd]

theorem fetchPageCore_full (msgs : List Message) (cid : Nat)
    (cursor : Option PaginationCursor)
    (h : (queryMessages msgs cid cursor).length = MESSAGES_PER_PAGE + 1) :
    fetchPageCore msgs cid cursor =
      ⟨((queryMessages msgs cid cursor).take MESSAGES_PER_PAGE).reverse,
       (((queryMessages msgs cid cursor).take MESSAGES_PER_PAGE).reverse).head?.map
         (fun r => ⟨r.created_at, r.id⟩),
       true⟩ := by
  have hd : decide ((queryMessages msgs cid cursor).length > MESSAGES_PER_PAGE) = true := by
    simp [h]
  simp [fetchPageCore, hd]

theorem queryMessages_length_le (msgs : List Message) (cid : Nat)
    (cursor : Option PaginationCursor) :
    (queryMessages msgs cid cursor).length ≤ MESSAGES_PER_PAGE + 1 := by
  simp only [queryMessages, List.length_take]
  exact Nat.min_le_left _ _

theorem queryMessages_pairwise (msgs : List Message) (cid : Nat)
    (cursor : Option PaginationCursor) :
    (queryMessages msgs cid cursor).Pairwise (fun a b => newerEq a b = true) :=
  List.Pairwise.sublist (List.take_sublist _ _) (pairwise_sortNewestFirst _)

theorem queryMessages_nil (msgs : List Message) (cid : Nat)
    (cursor : Option PaginationCursor)
    (h : ∀ m ∈ msgs, m.conversation_id ≠ cid) :
    queryMessages msgs cid cursor = [] := by
  have hf : msgs.filter
      (fun m => decide (m.conversation_id = cid) && cursorFilter cursor m) = [] := by
    rw [List.filter_eq_nil_iff]
    intro a ha
    simp [h a ha]
  simp [queryMessages, hf, sortNewestFirst]

/-- C1: the claim asserts that paging with each returned `nextCursor` until
`hasMore = false` yields every message of the conversation exactly once,
ties on `created_at` being resolved by also ordering and filtering on `id`.
The code's cursor filter is `lt('created_at', cursor.created_at)` alone —
the cursor's `id` is never used — so in a conversation of 21 messages that
share one `created_at`, the first page returns 20 of them and the second
page's strict `created_at` filter excludes the remaining tied message: the
full pagination yields only 20 of the 21 distinct messages and the message
with id 1 is never returned. -/
theorem useMessages_pagination_drops_tied_message :
    msgsTie.length = 21 ∧ msgsTie.Nodup ∧
    (∀ m ∈ msgsTie, m.conversation_id = 1) ∧
    mkTieMsg 1 ∈ msgsTie ∧
    (fetchAll msgsTie 1 3 none).length = 20 ∧
    (fetchAll msgsTie 1 3 none).Nodup ∧
    (∀ m ∈ fetchAll msgsTie 1 3 none, m.id ≠ 1) := by decide

/-- C2: a single page fetch queries at most `pageSize + 1 = 21` rows
ordered newest-first; with 21 rows it sets `hasMore = true` and drops the
extra row, returns the remaining rows reversed to oldest-first (at most 20
items), and builds `nextCursor` from the oldest row of the returned page;
an empty conversation yields `{ data: [], nextCursor: null,
hasMore: false }`. -/
theorem useMessages_fetchPage_contract (msgs : List Message) (cid : Nat)
    (cursor : Option PaginationCursor) :
    (queryMessages msgs cid cursor).length ≤ MESSAGES_PER_PAGE + 1 ∧
    (queryMessages msgs cid cursor).Pairwise (fun a b => newerEq a b = true) ∧
    ((queryMessages msgs cid cursor).length = MESSAGES_PER_PAGE + 1 →
      (fetchPage msgs (some cid) cursor).hasMore = true ∧
      (fetchPage msgs (some cid) cursor).data =
        ((queryMessages msgs cid cursor).take MESSAGES_PER_PAGE).reverse) ∧
    ((queryMessages msgs cid cursor).length ≤ MESSAGES_PER_PAGE →
      (fetchPage msgs (some cid) cursor).hasMore = false ∧
      (fetchPage msgs (some cid) cursor).data = (queryMessages msgs cid cursor).reverse ∧
      (fetchPage msgs (some cid) cursor).nextCursor = none) ∧
    (fetchPage msgs (some cid) cursor).data.length ≤ MESSAGES_PER_PAGE ∧
    (fetchPage msgs (some cid) cursor).data.Pairwise (fun a b => newerEq b a = true) ∧
    ((fetchPage msgs (some cid) cursor).hasMore = true →
      (fetchPage msgs (some cid) cursor).nextCursor =
        (fetchPage msgs (some cid) cursor).data.head?.map
          (fun r => ⟨r.created_at, r.id⟩)) ∧
    ((∀ m ∈ msgs, m.conversation_id ≠ cid) →
      fetchPage msgs (some cid) cursor = ⟨[], none, false⟩) := by
  refine ⟨queryMessages_length_le _ _ _, queryMessages_pairwise _ _ _, ?_, ?_, ?_, ?_, ?_, ?_⟩
  · intro h
    rw [fetchPage_some, fetchPageCore_full _ _ _ h]
    exact ⟨rfl, rfl⟩
  · intro h
    rw [fetchPage_some, fetchPageCore_small _ _ _ h]
    exact ⟨rfl, rfl, rfl⟩
  · rcases le_or_lt (queryMessages msgs cid cursor).length MESSAGES_PER_PAGE with h | h
    · rw [fetchPage_some, fetchPageCore_small _ _ _ h]
      simpa using h
    · have h21 : (queryMessages msgs cid cursor).length = MESSAGES_PER_PAGE + 1 :=
        Nat.le_antisymm (queryMessages_length_le _ _ _) h
      rw [fetchPage_some, fetchPageCore_full _ _ _ h21]
      simp [List.length_take, h21]
  · rcases le_or_lt (queryMessages msgs cid cursor).length MESSAGES_PER_PAGE with h | h
    · rw [fetchPage_some, fetchPageCore_small _ _ _ h]
      exact List.pairwise_reverse.mpr (queryMessages_pairwise _ _ _)
    · have h21 : (queryMessages msgs cid cursor).length = MESSAGES_PER_PAGE + 1 :=
        Nat.le_antisymm (queryMessages_length_le _ _ _) h
      rw [fetchPage_some, fetchPageCore_full _ _ _ h21]
      exact List.pairwise_reverse.mpr
        (List.Pairwise.sublist (List.take_sublist _ _) (queryMessages_pairwise _ _ _))
  · intro hm
    rcases le_or_lt (queryMessages msgs cid cursor).length MESSAGES_PER_PAGE with h | h
    · rw [fetchPage_some, fetchPageCore_small _ _ _ h] at hm
      simp at hm
    · have h21 : (queryMessages msgs cid cursor).length = MESSAGES_PER_PAGE + 1 :=
        Nat.le_antisymm (queryMessages_length_le _ _ _) h
      rw [fetchPage_some, fetchPageCore_full _ _ _ h21]
  · intro h
    rw [fetchPage_some,
      fetchPageCore_small _ _ _ (by rw [queryMessages_nil _ _ _ h]; simp),
      queryMessages_nil _ _ _ h]
    rfl

/-- Witness for C2: the empty-conversation clause of the contract applied
to the empty store. -/
theorem useMessages_fetchPage_contract_witness :
    fetchPage [] (some 1) none = ⟨[], none, false⟩ :=
  (useMessages_fetchPage_contract [] 1 none).2.2.2.2.2.2.2 (by simp)

/-- C9: with a null conversation id, the page function returns
`{ data: [], nextCursor: null, hasMore: false }` for every cursor and
store contents, issuing no store query. -/
theorem useMessages_null_conversation_short_circuit
    (msgs : List Message) (cursor : Option PaginationCursor) :
    fetchPageT msgs none cursor = (⟨[], none, false⟩, []) := rfl

theorem newerEq_refl (a : Message) : newerEq a a = true := by simp [newerEq]

theorem markFlip_unread_zero (msgs : List Message) (cid : Nat) :
    unreadCountQuery (msgs.map (markFlip cid)) cid = 0 := by
  simp only [unreadCountQuery, List.length_eq_zero, List.filter_eq_nil_iff]
  intro m' hm'
  rcases List.mem_map.mp hm' with ⟨m, hm, rfl⟩
  by_cases hc : (decide (m.conversation_id = cid) &&
      decide (m.sender_type = SenderType.customer) &&
      (decide (m.status = MsgStatus.sent) || decide (m.status = MsgStatus.delivered))) = true
  · simp [markFlip, hc]
  · simp only [markFlip, if_neg hc]
    simp at hc ⊢
    tauto

theorem markFlip_idem (cid : Nat) (m : Message) :
    markFlip cid (markFlip cid m) = markFlip cid m := by
  by_cases hc : (decide (m.conversation_id = cid) &&
      decide (m.sender_type = SenderType.customer) &&
      (decide (m.status = MsgStatus.sent) || decide (m.status = MsgStatus.delivered))) = true
  · simp [markFlip, hc]
  · simp [markFlip, hc]

theorem unreadCountQuery_eq_spec (msgs : List Message) (cid : Nat) :
    unreadCountQuery msgs cid = specUnreadCount msgs cid := by
  unfold unreadCountQuery specUnreadCount
  congr 1
  apply List.filter_congr
  intro m _
  simp [Bool.and_assoc]

theorem latestMessageQuery_none {msgs : List Message} {cid : Nat}
    (h : latestMessageQuery msgs cid = none) :
    ∀ m ∈ msgs, m.conversation_id ≠ cid := by
  unfold latestMessageQuery at h
  rw [List.head?_eq_none_iff] at h
  have hf : msgs.filter (fun m => decide (m.conversation_id = cid)) = [] := by
    have := length_sortNewestFirst (msgs.filter (fun m => decide (m.conversation_id = cid)))
    rw [h] at this
    exact List.length_eq_zero.mp this.symm
  rw [List.filter_eq_nil_iff] at hf
  intro m hm
  simpa using hf m hm

theorem latestMessageQuery_some {msgs : List Message} {cid : Nat} {m : Message}
    (h : latestMessageQuery msgs cid = some m) :
    m ∈ msgs ∧ m.conversation_id = cid ∧
      ∀ m' ∈ msgs, m'.conversation_id = cid → newerEq m m' = true := by
  unfold latestMessageQuery at h
  rcases hl : sortNewestFirst (msgs.filter (fun m => decide (m.conversation_id = cid))) with
    _ | ⟨a, t⟩
  · rw [hl] at h; exact absurd h (by simp)
  · rw [hl] at h
    have ham : a = m := by simpa using h
    subst ham
    have hmem : a ∈ msgs.filter (fun m => decide (m.conversation_id = cid)) := by
      rw [← mem_sortNewestFirst, hl]; exact List.mem_cons_self _ _
    have hpw := pairwise_sortNewestFirst (msgs.filter (fun m => decide (m.conversation_id = cid)))
    rw [hl] at hpw
    rcases List.pairwise_cons.mp hpw with ⟨hhead, _⟩
    rcases List.mem_filter.mp hmem with ⟨hin, hcid⟩
    refine ⟨hin, by simpa using hcid, ?_⟩
    intro m' hm' hcid'
    have hm'f : m' ∈ msgs.filter (fun m => decide (m.conversation_id = cid)) :=
      List.mem_filter.mpr ⟨hm', by simpa using hcid'⟩
    rw [← mem_sortNewestFirst, hl] at hm'f
    rcases List.mem_cons.mp hm'f with rfl | hm't
    · exact newerEq_refl _
    · exact hhead m' hm't

/-- C4: a successful `markMessagesAsRead` flips exactly the conversation's
customer-sent messages with status `sent` or `delivered` to `read` (one
batch map over the store), leaves every other message unchanged, leaves
the conversation's unread count at 0, and a second call is a no-op. -/
theorem useMarkMessagesAsRead_contract (uid : Nat) (msgs msgs' : List Message)
    (cid : Nat) (h : markMessagesAsRead (some uid) msgs cid = Except.ok msgs') :
    msgs'.length = msgs.length ∧
    (∀ (i : Nat) (hi : i < msgs.length) (hi' : i < msgs'.length),
      ((msgs.get ⟨i, hi⟩).conversation_id = cid ∧
          (msgs.get ⟨i, hi⟩).sender_type = SenderType.customer ∧
          ((msgs.get ⟨i, hi⟩).status = MsgStatus.sent ∨
            (msgs.get ⟨i, hi⟩).status = MsgStatus.delivered) →
        msgs'.get ⟨i, hi'⟩ = { msgs.get ⟨i, hi⟩ with status := MsgStatus.read }) ∧
      (¬((msgs.get ⟨i, hi⟩).conversation_id = cid ∧
          (msgs.get ⟨i, hi⟩).sender_type = SenderType.customer ∧
          ((msgs.get ⟨i, hi⟩).status = MsgStatus.sent ∨
            (msgs.get ⟨i, hi⟩).status = MsgStatus.delivered)) →
        msgs'.get ⟨i, hi'⟩ = msgs.get ⟨i, hi⟩)) ∧
    unreadCountQuery msgs' cid = 0 ∧
    markMessagesAsRead (some uid) msgs' cid = Except.ok msgs' := by
  have hmap : msgs' = msgs.map (markFlip cid) := by
    have : Except.ok (ε := String) (msgs.map (markFlip cid)) = Except.ok msgs' := h
    exact (Except.ok.inj this).symm
  subst hmap
  refine ⟨List.length_map _ _, ?_, markFlip_unread_zero _ _, ?_⟩
  · intro i hi hi'
    have hget : (msgs.map (markFlip cid)).get ⟨i, hi'⟩ = markFlip cid (msgs.get ⟨i, hi⟩) := by
      simp [List.get_eq_getElem, List.getElem_map]
    constructor
    · rintro ⟨h1, h2, h3⟩
      have hb : (decide ((msgs.get ⟨i, hi⟩).conversation_id = cid) &&
          decide ((msgs.get ⟨i, hi⟩).sender_type = SenderType.customer) &&
          (decide ((msgs.get ⟨i, hi⟩).status = MsgStatus.sent) ||
            decide ((msgs.get ⟨i, hi⟩).status = MsgStatus.delivered))) = true := by
        simp only [List.get_eq_getElem] at h1 h2 h3
        simp only [List.get_eq_getElem, Bool.and_eq_true, Bool.or_eq_true,
          decide_eq_true_eq]
        exact ⟨⟨h1, h2⟩, h3⟩
      rw [hget]
      unfold markFlip
      rw [if_pos hb]
    · intro hn
      have hb : ¬(decide ((msgs.get ⟨i, hi⟩).conversation_id = cid) &&
          decide ((msgs.get ⟨i, hi⟩).sender_type = SenderType.customer) &&
          (decide ((msgs.get ⟨i, hi⟩).status = MsgStatus.sent) ||
            decide ((msgs.get ⟨i, hi⟩).status = MsgStatus.delivered))) = true := by
        simp only [List.get_eq_getElem, Bool.and_eq_true, Bool.or_eq_true,
          decide_eq_true_eq, and_assoc]
        simpa only [List.get_eq_getElem] using hn
      rw [hget]
      unfold markFlip
      rw [if_neg hb]
  · simp only [markMessagesAsRead, List.map_map]
    congr 1
    apply List.map_congr_left
    intro m _
    exact markFlip_idem cid m

/-- Witness for C4: marking conversation 1 of `demoUnread` read zeroes the
unread count and a second call returns the store unchanged. -/
theorem useMarkMessagesAsRead_contract_witness :
    unreadCountQuery demoUnreadAfter 1 = 0 ∧
    markMessagesAsRead (some 5) demoUnreadAfter 1 = Except.ok demoUnreadAfter := by
  have h := useMarkMessagesAsRead_contract 5 demoUnread demoUnreadAfter 1 rfl
  exact ⟨h.2.2.1, h.2.2.2⟩

theorem jsTruthy_none : jsTruthy none = false := rfl

theorem jsTruthy_some_empty : jsTruthy (some "") = false := by
  simp [jsTruthy]

theorem jsTruthy_some_ne {s : String} (h : s ≠ "") : jsTruthy (some s) = true := by
  simp [jsTruthy, h]

/-- C5 counterexample: the claim says `latest_message_preview` equals the
most recent message's `content`, with `'Image'` reserved for a message
that has only `image_url` set.  Here the most recent message's `content`
is the non-null empty string and `image_url` is set; the roll-up
nevertheless reports `'Image'` (JS truthiness treats `''` as absent), not
the content `''`. -/
theorem useConversations_preview_counterexample :
    useConversationsQuery (some 5) [convC5] [msgC5] =
      Except.ok [⟨convC5, 0, "Image"⟩] ∧
    latestMessageQuery [msgC5] convC5.id = some msgC5 ∧
    msgC5.content = some "" ∧ ("Image" : String) ≠ "" := by
  refine ⟨rfl, rfl, rfl, by decide⟩

/-- C5 (amended): in every roll-up summary, `unread_count` equals the
number of the conversation's customer-sent messages with status `sent` or
`delivered`, and `latest_message_preview` equals the most recent message's
`content` when that is non-null and non-empty, `'Image'` when the content
is null or empty and `image_url` is non-null and non-empty, and `''` when
the conversation has no messages or the latest message has neither.  The
most recent message returned by the latest-message query is proved to be a
message of the conversation that every other message of the conversation
compares older-or-equal to. -/
theorem useConversations_rollup_amended (uid : Nat) (convs : List Conversation)
    (msgs : List Message) (out : List ConvSummary)
    (h : useConversationsQuery (some uid) convs msgs = Except.ok out) :
    ∀ s ∈ out,
      s.unread_count = specUnreadCount msgs s.conv.id ∧
      (latestMessageQuery msgs s.conv.id = none →
        (∀ m ∈ msgs, m.conversation_id ≠ s.conv.id) ∧ s.latest_message_preview = "") ∧
      (∀ m, latestMessageQuery msgs s.conv.id = some m →
        m ∈ msgs ∧ m.conversation_id = s.conv.id ∧
        (∀ m' ∈ msgs, m'.conversation_id = s.conv.id → newerEq m m' = true) ∧
        (∀ c, m.content = some c → c ≠ "" → s.latest_message_preview = c) ∧
        ((m.content = none ∨ m.content = some "") → jsTruthy m.image_url = true →
          s.latest_message_preview = "Image") ∧
        ((m.content = none ∨ m.content = some "") → jsTruthy m.image_url = false →
          s.latest_message_preview = "")) := by
  have hout : out = ((sortConvs (convs.filter
      (fun c => decide (c.business_id = uid)))).take 100).map (fun c =>
        ⟨c, unreadCountQuery msgs c.id, computePreview (latestMessageQuery msgs c.id)⟩) := by
    have : Except.ok (ε := String) (((sortConvs (convs.filter
        (fun c => decide (c.business_id = uid)))).take 100).map (fun c =>
          (⟨c, unreadCountQuery msgs c.id,
            computePreview (latestMessageQuery msgs c.id)⟩ : ConvSummary))) =
        Except.ok out := h
    exact (Except.ok.inj this).symm
  subst hout
  intro s hs
  rcases List.mem_map.mp hs with ⟨c, _hc, rfl⟩
  refine ⟨unreadCountQuery_eq_spec _ _, ?_, ?_⟩
  · intro hnone
    exact ⟨latestMessageQuery_none hnone, by simp [computePreview, hnone]⟩
  · intro m hm
    rcases latestMessageQuery_some hm with ⟨hmem, hcid, hnewest⟩
    refine ⟨hmem, hcid, hnewest, ?_, ?_, ?_⟩
    · intro cnt hcnt hne
      simp [computePreview, hm, hcnt, jsTruthy_some_ne hne]
    · rintro (hc | hc) himg <;>
        simp [computePreview, hm, hc, jsTruthy_none, jsTruthy_some_empty, himg]
    · rintro (hc | hc) himg <;>
        simp [computePreview, hm, hc, jsTruthy_none, jsTruthy_some_empty, himg]

/-- Witness for C5 (amended): applied to a store whose conversation 1 has
one unread customer text message. -/
theorem useConversations_rollup_amended_witness :
    (⟨⟨1, 5, "a@b.c", none, none, false, 1, 10⟩, 1, "hello"⟩ : ConvSummary).unread_count =
      specUnreadCount [⟨1, 1, SenderType.customer, 9, some "hello", none,
        MsgStatus.sent, none, 10⟩]
        (⟨⟨1, 5, "a@b.c", none, none, false, 1, 10⟩, 1, "hello"⟩ : ConvSummary).conv.id :=
  (useConversations_rollup_amended 5
    [⟨1, 5, "a@b.c", none, none, false, 1, 10⟩]
    [⟨1, 1, SenderType.customer, 9, some "hello", none, MsgStatus.sent, none, 10⟩]
    _ rfl _ (List.mem_singleton.mpr rfl)).1

/-- C3: with away messaging enabled and a truthy away message, two
sequential calls of the away trigger for the same conversation (no store
errors) leave exactly one persisted business-authored copy of the away
message in the conversation: the first call inserts it, the second finds
it by `(conversation_id, sender_type=business, sender_id, content)` and
returns the store unchanged. -/
theorem checkAndSendAwayMessage_idempotent (store : ChatStore) (bid cid : Nat)
    (b : Business) (s : String) (n1 t1 n2 t2 : Nat)
    (hb : singleRow (store.businesses.filter (fun x => decide (x.id = bid))) = some b)
    (hen : b.away_message_enabled = true)
    (hmsg : b.away_message = some s) (hne : s ≠ "")
    (h0 : awayCount store bid cid s = 0) :
    awayCount (checkAndSendAwayMessage bid cid n1 t1 store) bid cid s = 1 ∧
    checkAndSendAwayMessage bid cid n2 t2 (checkAndSendAwayMessage bid cid n1 t1 store) =
      checkAndSendAwayMessage bid cid n1 t1 store := by
  have hcond : (b.away_message_enabled && jsTruthy b.away_message) = true := by
    rw [hen, hmsg]
    simp [jsTruthy_some_ne hne]
  have hgetD : b.away_message.getD "" = s := by rw [hmsg]; rfl
  have hfnil : store.messages.filter (awayPred bid cid s) = [] :=
    List.length_eq_zero.mp h0
  have hany0 : store.messages.any (awayPred bid cid (b.away_message.getD "")) = false := by
    rw [hgetD, List.any_eq_false]
    intro x hx hpx
    have hmemf : x ∈ store.messages.filter (awayPred bid cid s) :=
      List.mem_filter.mpr ⟨hx, hpx⟩
    rw [hfnil] at hmemf
    exact absurd hmemf (List.not_mem_nil x)
  have hpnew : awayPred bid cid s
      ⟨n1, cid, SenderType.business, bid, some (b.away_message.getD ""), none,
        MsgStatus.sent, none, t1⟩ = true := by
    simp [awayPred, hgetD]
  have hst1 : checkAndSendAwayMessage bid cid n1 t1 store =
      { store with
        messages := store.messages ++
          [⟨n1, cid, SenderType.business, bid, some (b.away_message.getD ""), none,
            MsgStatus.sent, none, t1⟩],
        conversations := store.conversations.map (fun c =>
          if decide (c.id = cid) then { c with updated_at := t1 } else c) } := by
    simp only [checkAndSendAwayMessage, hb, hcond, Bool.not_true, Bool.false_eq_true,
      if_false, hany0]
  constructor
  · rw [hst1]
    unfold awayCount
    simp only [List.filter_append, List.length_append, hfnil]
    simp [hpnew]
  · have hany1 : ({ store with
        messages := store.messages ++
          [⟨n1, cid, SenderType.business, bid, some (b.away_message.getD ""), none,
            MsgStatus.sent, none, t1⟩],
        conversations := store.conversations.map (fun c =>
          if decide (c.id = cid) then { c with updated_at := t1 } else c) } :
          ChatStore).messages.any (awayPred bid cid (b.away_message.getD "")) = true := by
      rw [List.any_eq_true]
      refine ⟨⟨n1, cid, SenderType.business, bid, some (b.away_message.getD ""), none,
        MsgStatus.sent, none, t1⟩, ?_, ?_⟩
      · simp
      · rw [hgetD] at hpnew ⊢
        exact hpnew
    rw [hst1]
    simp only [checkAndSendAwayMessage, hb, hcond, Bool.not_true, Bool.false_eq_true,
      if_false, hany1, if_true]

/-- Witness for C3: two sequential away triggers on the fresh conversation
of `storeC3` persist exactly one away message. -/
theorem checkAndSendAwayMessage_idempotent_witness :
    awayCount (checkAndSendAwayMessage 5 1 10 20 storeC3) 5 1 "We are away" = 1 ∧
    checkAndSendAwayMessage 5 1 11 21 (checkAndSendAwayMessage 5 1 10 20 storeC3) =
      checkAndSendAwayMessage 5 1 10 20 storeC3 :=
  checkAndSendAwayMessage_idempotent storeC3 5 1 ⟨5, some "We are away", true⟩
    "We are away" 10 20 11 21 rfl rfl rfl (by decide) rfl

theorem id_inj_of_pairwise {convs : List Conversation}
    (h : convs.Pairwise (fun a b => a.id ≠ b.id)) :
    ∀ c ∈ convs, ∀ d ∈ convs, c.id = d.id → c = d := by
  induction convs with
  | nil => simp
  | cons a l ih =>
      rcases List.pairwise_cons.mp h with ⟨ha, hl⟩
      intro c hc d hd heq
      rcases List.mem_cons.mp hc with rfl | hc'
      · rcases List.mem_cons.mp hd with rfl | hd'
        · rfl
        · exact absurd heq (ha d hd')
      · rcases List.mem_cons.mp hd with rfl | hd'
        · exact absurd heq.symm (ha c hc')
        · exact ih hl c hc' d hd' heq

theorem pairCount_map_update (convs : List Conversation) (x updated : Conversation)
    (hx : x ∈ convs)
    (hids : convs.Pairwise (fun a b => a.id ≠ b.id))
    (hbus : updated.business_id = x.business_id)
    (hmail : updated.customer_email = x.customer_email) (b : Nat) (e : String) :
    pairCount (convs.map (fun c => if decide (c.id = x.id) then updated else c)) b e =
      pairCount convs b e := by
  unfold pairCount
  rw [List.filter_map, List.length_map]
  congr 1
  apply List.filter_congr
  intro c hc
  by_cases hcx : decide (c.id = x.id) = true
  · have hcex : c = x :=
      id_inj_of_pairwise hids c hc x hx (by simpa using hcx)
    subst hcex
    simp [Function.comp, hcx, hbus, hmail]
  · simp [Function.comp, hcx]

/-- C6: on a store with unique conversation ids and at most one
conversation per `(business_id, customer_email)` pair, find-or-create
preserves that uniqueness; when the pair exists its conversation is
returned (same id, pair, pinned flag and creation time — only
name/phone/updated_at may change) and no row is inserted; when it does not
exist exactly one new conversation carrying the pair is appended. -/
theorem useFindOrCreateConversation_uniqueness (convs : List Conversation) (bid : Nat)
    (email : String) (name phone : Option String) (newId now : Nat)
    (conv' : Conversation) (convs' : List Conversation)
    (hids : convs.Pairwise (fun a b => a.id ≠ b.id))
    (hinv : ∀ b e, pairCount convs b e ≤ 1)
    (hr : findOrCreateConversation convs bid email name phone newId now = (conv', convs')) :
    (∀ b e, pairCount convs' b e ≤ 1) ∧
    (pairCount convs bid email = 1 →
      convs'.length = convs.length ∧
      ∃ existing, existing ∈ convs ∧ existing.business_id = bid ∧
        existing.customer_email = email ∧ conv'.id = existing.id ∧
        conv'.business_id = bid ∧ conv'.customer_email = email ∧
        conv'.pinned = existing.pinned ∧ conv'.created_at = existing.created_at) ∧
    (pairCount convs bid email = 0 →
      convs' = convs ++ [conv'] ∧ conv'.business_id = bid ∧
      conv'.customer_email = email ∧ conv'.id = newId) := by
  rcases hfl : convs.filter (fun c =>
      decide (c.business_id = bid) && decide (c.customer_email = email)) with
    _ | ⟨x, _ | ⟨y, t⟩⟩
  · -- no conversation for the pair: the insert branch runs
    have hcount : pairCount convs bid email = 0 := by
      unfold pairCount
      rw [hfl]
      rfl
    have heq : findOrCreateConversation convs bid email name phone newId now =
        (⟨newId, bid, email, if jsTruthy name then name else none,
          if jsTruthy phone then phone else none, false, now, now⟩,
         convs ++ [⟨newId, bid, email, if jsTruthy name then name else none,
          if jsTruthy phone then phone else none, false, now, now⟩]) := by
      simp only [findOrCreateConversation, hfl, singleRow]
    rw [heq] at hr
    injection hr with h1 h2
    subst h1
    subst h2
    refine ⟨?_, ?_, ?_⟩
    · intro b e
      unfold pairCount
      rw [List.filter_append, List.length_append]
      by_cases hbe : (decide ((⟨newId, bid, email, if jsTruthy name then name else none,
          if jsTruthy phone then phone else none, false, now, now⟩ :
            Conversation).business_id = b) &&
          decide ((⟨newId, bid, email, if jsTruthy name then name else none,
          if jsTruthy phone then phone else none, false, now, now⟩ :
            Conversation).customer_email = e)) = true
      · simp only [Bool.and_eq_true, decide_eq_true_eq] at hbe
        obtain ⟨hb, he⟩ := hbe
        subst hb
        subst he
        have h0 : (convs.filter (fun c =>
            decide (c.business_id = bid) && decide (c.customer_email = email))).length = 0 := by
          rw [hfl]; rfl
        simp [List.filter_cons, h0]
      · have h1 : ([(⟨newId, bid, email, if jsTruthy name then name else none,
            if jsTruthy phone then phone else none, false, now, now⟩ : Conversation)].filter
            (fun c => decide (c.business_id = b) && decide (c.customer_email = e))).length
            = 0 := by
          simp only [List.filter_cons, hbe]
          rfl
        rw [h1]
        exact hinv b e
    · intro hone
      rw [hcount] at hone
      exact absurd hone (by decide)
    · intro _
      exact ⟨rfl, rfl, rfl, rfl⟩
  · -- exactly one conversation for the pair: x is found and returned
    have hxmem : x ∈ convs.filter (fun c =>
        decide (c.business_id = bid) && decide (c.customer_email = email)) := by
      rw [hfl]; exact List.mem_cons_self _ _
    rcases List.mem_filter.mp hxmem with ⟨hxin, hxp⟩
    simp only [Bool.and_eq_true, decide_eq_true_eq] at hxp
    have hcount : pairCount convs bid email = 1 := by
      unfold pairCount
      rw [hfl]
      rfl
    by_cases htr : (jsTruthy name || jsTruthy phone) = true
    · have heq : findOrCreateConversation convs bid email name phone newId now =
          ({ x with
              customer_name := if jsTruthy name then name else x.customer_name,
              customer_phone := if jsTruthy phone then phone else x.customer_phone,
              updated_at := now },
           convs.map (fun c => if decide (c.id = x.id) then
            { x with
              customer_name := if jsTruthy name then name else x.customer_name,
              customer_phone := if jsTruthy phone then phone else x.customer_phone,
              updated_at := now } else c)) := by
        simp only [findOrCreateConversation, hfl, singleRow]
        rw [if_pos htr]
      rw [heq] at hr
      injection hr with h1 h2
      subst h1
      subst h2
      refine ⟨?_, ?_, ?_⟩
      · intro b e
        rw [pairCount_map_update convs x
          ({ x with
              customer_name := if jsTruthy name then name else x.customer_name,
              customer_phone := if jsTruthy phone then phone else x.customer_phone,
              updated_at := now }) hxin hids rfl rfl b e]
        exact hinv b e
      · intro _
        refine ⟨List.length_map _ _, x, hxin, hxp.1, hxp.2, rfl, hxp.1, hxp.2, rfl, rfl⟩
      · intro hzero
        rw [hcount] at hzero
        exact absurd hzero (by decide)
    · have heq : findOrCreateConversation convs bid email name phone newId now =
          (x, convs) := by
        simp only [findOrCreateConversation, hfl, singleRow]
        rw [if_neg htr]
      rw [heq] at hr
      injection hr with h1 h2
      subst h1
      subst h2
      refine ⟨hinv, ?_, ?_⟩
      · intro _
        exact ⟨rfl, x, hxin, hxp.1, hxp.2, rfl, hxp.1, hxp.2, rfl, rfl⟩
      · intro hzero
        rw [hcount] at hzero
        exact absurd hzero (by decide)
  · -- more than one conversation for the pair contradicts the invariant
    exfalso
    have := hinv bid email
    unfold pairCount at this
    rw [hfl] at this
    simp at this

/-- Witness for C6: creating a conversation for a new pair on an empty
store appends exactly one conversation carrying the pair. -/
theorem useFindOrCreateConversation_uniqueness_witness :
    ([(⟨1, 5, "a@b.c", none, none, false, 2, 2⟩ : Conversation)] : List Conversation) =
      [] ++ [(⟨1, 5, "a@b.c", none, none, false, 2, 2⟩ : Conversation)] ∧
    (⟨1, 5, "a@b.c", none, none, false, 2, 2⟩ : Conversation).business_id = 5 ∧
    (⟨1, 5, "a@b.c", none, none, false, 2, 2⟩ : Conversation).customer_email = "a@b.c" ∧
    (⟨1, 5, "a@b.c", none, none, false, 2, 2⟩ : Conversation).id = 1 :=
  (useFindOrCreateConversation_uniqueness [] 5 "a@b.c" none none 1 2
    ⟨1, 5, "a@b.c", none, none, false, 2, 2⟩
    [⟨1, 5, "a@b.c", none, none, false, 2, 2⟩]
    List.Pairwise.nil (fun _ _ => Nat.zero_le 1) rfl).2.2 rfl

/-- C7: conversation deletion errors and issues no store write when there
is no authenticated user, when the conversation cannot be fetched, or when
it belongs to another business; on success it removes the conversation's
messages and the conversation row, deleting the messages strictly before
the conversation. -/
theorem useDeleteConversation_contract (user : Option Nat) (convs : List Conversation)
    (msgs : List Message) (cid : Nat) :
    (user = none → useDeleteConversationRun user convs msgs cid =
      (Except.error "Not authenticated", [])) ∧
    (∀ uid, user = some uid →
      singleRow (convs.filter (fun c => decide (c.id = cid))) = none →
      useDeleteConversationRun user convs msgs cid =
        (Except.error "Conversation not found", [])) ∧
    (∀ uid c, user = some uid →
      singleRow (convs.filter (fun c => decide (c.id = cid))) = some c →
      c.business_id ≠ uid →
      useDeleteConversationRun user convs msgs cid =
        (Except.error "Unauthorized: Conversation does not belong to this business", [])) ∧
    (∀ uid c, user = some uid →
      singleRow (convs.filter (fun c => decide (c.id = cid))) = some c →
      c.business_id = uid →
      useDeleteConversationRun user convs msgs cid =
        (Except.ok (convs.filter (fun c => !decide (c.id = cid)),
                    msgs.filter (fun m => !decide (m.conversation_id = cid))),
         [StoreOp.deleteMessages cid, StoreOp.deleteConversation cid])) := by
  refine ⟨?_, ?_, ?_, ?_⟩
  · rintro rfl
    rfl
  · rintro uid rfl hnone
    simp [useDeleteConversationRun, hnone]
  · rintro uid c rfl hsome hne
    simp [useDeleteConversationRun, hsome, hne]
  · rintro uid c rfl hsome heq
    simp [useDeleteConversationRun, hsome, heq]

/-- Witness for C7: the owning business deletes conversation 1 — both
deletes run, messages first. -/
theorem useDeleteConversation_contract_witness :
    useDeleteConversationRun (some 5) [convC7] [msgC7] 1 =
      (Except.ok ([], []),
       [StoreOp.deleteMessages 1, StoreOp.deleteConversation 1]) :=
  (useDeleteConversation_contract (some 5) [convC7] [msgC7] 1).2.2.2 5 convC7 rfl rfl rfl

/-- C8: whenever the message insert succeeds, `useSendMessage` returns the
inserted message, whatever the later notification lookups and the email
dispatch do; a rejected lookup is caught and logged, and a rejected email
dispatch is caught and logged. -/
theorem useSendMessage_notification_isolation (env : SendEnv) (msg : Message)
    (h : env.insertResult = Except.ok msg) :
    (useSendMessage env).1 = Except.ok msg ∧
    (∀ e, env.convLookup = Except.error e →
      (useSendMessage env).2 = ["Failed to prepare email notification"]) ∧
    (∀ conv b e, env.convLookup = Except.ok (some conv) →
      (if msg.sender_type = SenderType.business then env.businessBySender
        else env.businessByConv) = Except.ok (some b) →
      env.notifyResult = Except.error e →
      (useSendMessage env).2 = ["Email notification error"]) := by
  refine ⟨by simp [useSendMessage, h], ?_, ?_⟩
  · intro e he
    simp [useSendMessage, h, he]
  · intro conv b e hconv hbus hnot
    simp [useSendMessage, h, hconv, hbus, hnot]

/-- Witness for C8: the send still returns the inserted message when the
email dispatch fails. -/
theorem useSendMessage_notification_isolation_witness :
    (useSendMessage envC8).1 = Except.ok msgC8 :=
  (useSendMessage_notification_isolation envC8 msgC8 rfl).1

/-- C10: on a store satisfying the at-most-one-conversation-per-pair
invariant, `checkConversationExists` returns true iff a conversation for
the pair exists; a `PGRST116` (no row) outcome yields false rather than an
error, and any other store error code is propagated. -/
theorem checkConversationExists_contract (convs : List Conversation) (bid : Nat)
    (email : String) (hinv : pairCount convs bid email ≤ 1) :
    ((∃ c ∈ convs, c.business_id = bid ∧ c.customer_email = email) →
      checkConversationExists convs bid email none = Except.ok true) ∧
    ((¬∃ c ∈ convs, c.business_id = bid ∧ c.customer_email = email) →
      checkConversationExists convs bid email none = Except.ok false) ∧
    (∀ code, code ≠ "PGRST116" →
      checkConversationExists convs bid email (some code) = Except.error code) ∧
    checkConversationExists convs bid email (some "PGRST116") = Except.ok false := by
  refine ⟨?_, ?_, ?_, ?_⟩
  · rintro ⟨c, hc, h1, h2⟩
    have hcf : c ∈ convs.filter (fun c =>
        decide (c.business_id = bid) && decide (c.customer_email = email)) :=
      List.mem_filter.mpr ⟨hc, by simp [h1, h2]⟩
    rcases hfl : convs.filter (fun c =>
        decide (c.business_id = bid) && decide (c.customer_email = email)) with
      _ | ⟨x, _ | ⟨y, t⟩⟩
    · rw [hfl] at hcf
      exact absurd hcf (List.not_mem_nil c)
    · simp [checkConversationExists, hfl]
    · exfalso
      have := hinv
      unfold pairCount at this
      rw [hfl] at this
      simp at this
  · intro hne
    rcases hfl : convs.filter (fun c =>
        decide (c.business_id = bid) && decide (c.customer_email = email)) with
      _ | ⟨x, _ | ⟨y, t⟩⟩
    · simp [checkConversationExists, hfl]
    · exfalso
      apply hne
      have hx : x ∈ convs.filter (fun c =>
          decide (c.business_id = bid) && decide (c.customer_email = email)) := by
        rw [hfl]; exact List.mem_cons_self _ _
      rcases List.mem_filter.mp hx with ⟨hin, hp⟩
      simp only [Bool.and_eq_true, decide_eq_true_eq] at hp
      exact ⟨x, hin, hp.1, hp.2⟩
    · exfalso
      have := hinv
      unfold pairCount at this
      rw [hfl] at this
      simp at this
  · intro code hcode
    simp [checkConversationExists, hcode]
  · simp [checkConversationExists]

/-- Witness for C10: the lookup reports the existing pair. -/
theorem checkConversationExists_contract_witness :
    checkConversationExists [convC10] 5 "a@b.c" none = Except.ok true :=
  (checkConversationExists_contract [convC10] 5 "a@b.c" (by decide)).1
    ⟨convC10, List.mem_singleton.mpr rfl, rfl, rfl⟩
